import Mathlib

/-
Verification of the intra-candle price-path generator and the simulation
engine of the price simulator service
(src/services/simulation/price_simulator.py).

Python floats are modelled as rationals; the process-local random source is
modelled by two injected streams: a stream of integer draws (the successive
results of random.randint(1, num_points - 2)) and a stream of jitter draws
(the successive results of random.uniform(-0.1, 0.1)).  The while-loop that
redraws low_idx until it differs from high_idx is modelled with explicit
fuel: a result of timeout for every fuel value corresponds to
non-termination of the Python loop.
-/

/-- One OHLCV candle as consumed by the generator: the fields of the row
dictionary that _generate_price_points reads. -/
structure Candle where
  time : ℤ
  close_time : ℤ
  open_price : ℚ
  high_price : ℚ
  low_price : ℚ
  close_price : ℚ
deriving DecidableEq, Inhabited

/-- One generated price point, mirroring the dictionary built at the end of
_generate_price_points (the ISO timestamp string is omitted: no claim
mentions it). -/
structure PricePoint where
  price : ℚ
  is_open : Bool
  is_high : Bool
  is_low : Bool
  is_close : Bool
  point_index : ℕ
  total_points : ℕ
deriving DecidableEq, Inhabited

/-- Rounding to 3 decimal places, modelling round(x, 3). -/
def round3 (q : ℚ) : ℚ := (round (q * 1000) : ℤ) / 1000

/-- In-place assignment prices[i] = v on the price array, which is modelled
as a function from indices to values. -/
def setIdx (p : ℕ → ℚ) (i : ℕ) (v : ℚ) : ℕ → ℚ :=
  fun j => if j = i then v else p j

/-- The Python range(a, b). -/
def pyRange (a b : ℕ) : List ℕ := List.range' a (b - a)

/-- One iteration of a gap-filling loop body of _generate_price_points:
if prices[i] == 0 (the sentinel meaning not already set) then
prices[i] = base + u * mag where u is the next uniform(-0.1, 0.1) draw.
The state is the price array paired with the number of jitter draws
consumed so far. -/
def fillStep (u : ℕ → ℚ) (base : (ℕ → ℚ) → ℕ → ℚ) (mag : (ℕ → ℚ) → ℚ)
    (pc : (ℕ → ℚ) × ℕ) (i : ℕ) : (ℕ → ℚ) × ℕ :=
  if pc.1 i = 0 then (setIdx pc.1 i (base pc.1 i + u pc.2 * mag pc.1), pc.2 + 1)
  else pc

/-- A whole gap-filling loop, for i in range(a, b). -/
def fillLoop (u : ℕ → ℚ) (base : (ℕ → ℚ) → ℕ → ℚ) (mag : (ℕ → ℚ) → ℚ)
    (a b : ℕ) (pc : (ℕ → ℚ) × ℕ) : (ℕ → ℚ) × ℕ :=
  (pyRange a b).foldl (fillStep u base mag) pc

/-- The price array built by _generate_price_points once high_idx and
low_idx have been chosen: the four anchors (open at 0, close at
num_points - 1, high at high_idx, low at low_idx) followed by the three
gap-filling loops of the source, in source order.  u is the stream of
uniform(-0.1, 0.1) draws. -/
def generatePrices (c : Candle) (num_points high_idx low_idx : ℕ)
    (u : ℕ → ℚ) : ℕ → ℚ :=
  let p0 : ℕ → ℚ := fun _ => 0
  let p1 := setIdx p0 0 c.open_price
  let p2 := setIdx p1 (num_points - 1) c.close_price
  let p3 := setIdx p2 high_idx c.high_price
  let p4 := setIdx p3 low_idx c.low_price
  -- From open to high
  let s1 := if 0 < high_idx then
      fillLoop u
        (fun _ i => c.open_price + ((i : ℚ) / (high_idx : ℚ)) * (c.high_price - c.open_price))
        (fun _ => c.high_price - c.open_price) 1 high_idx (p4, 0)
    else (p4, 0)
  -- From high to low (or low to high)
  let min_idx := if high_idx ≤ low_idx then high_idx else low_idx
  let max_idx := if high_idx ≤ low_idx then low_idx else high_idx
  let s2 := if (min_idx : ℤ) < (max_idx : ℤ) - 1 then
      fillLoop u
        (fun p i => p min_idx +
          (((i - min_idx : ℕ) : ℚ) / ((max_idx - min_idx : ℕ) : ℚ)) * (p max_idx - p min_idx))
        (fun p => |p max_idx - p min_idx|) (min_idx + 1) max_idx s1
    else s1
  -- From last extreme to close
  let s3 := if (max_idx : ℤ) < (num_points : ℤ) - 1 then
      fillLoop u
        (fun p i => p max_idx +
          (((i - max_idx : ℕ) : ℚ) / ((num_points - 1 - max_idx : ℕ) : ℚ)) * (c.close_price - p max_idx))
        (fun p => |c.close_price - p max_idx|) (max_idx + 1) (num_points - 1) s2
    else s2
  s3.1

/-- The two ways a call to _generate_price_points can raise in Python:
random.randint raises ValueError on an empty range, and the timestamp
comprehension divides by (num_points - 1). -/
inductive PyError where
  | valueError
  | zeroDivisionError
deriving DecidableEq

/-- Outcome of _generate_price_points: a raised error, non-termination of
the redraw loop (timeout for every fuel), or the generated point list. -/
inductive GenResult where
  | err (e : PyError)
  | timeout
  | ok (points : List PricePoint)
deriving DecidableEq

/-- The point list of an ok outcome, and [] otherwise. -/
def GenResult.getPath : GenResult → List PricePoint
  | .ok pts => pts
  | _ => []

/-- The while-loop redrawing low_idx until it differs from high_idx.
d is the stream of randint draws and k the index of the next unconsumed
draw; none means the fuel was exhausted. -/
def redrawLow (high_idx : ℕ) (d : ℕ → ℕ) : ℕ → ℕ → Option ℕ
  | 0, _ => none
  | fuel + 1, k => if d k = high_idx then redrawLow high_idx d fuel (k + 1) else some (d k)

/-- _generate_price_points.  The draw stream d stands for the successive
results of random.randint(1, num_points - 2); a valid stream therefore has
all values in [1, num_points - 2].  The stream u holds the successive
uniform(-0.1, 0.1) draws.  The timestamp list is computed first in the
source and raises ZeroDivisionError when num_points == 1; randint raises
ValueError when its range is empty, i.e. when num_points - 2 < 1. -/
def generatePricePoints (c : Candle) (num_points : ℕ) (d : ℕ → ℕ)
    (u : ℕ → ℚ) (fuel : ℕ) : GenResult :=
  if num_points = 1 then .err .zeroDivisionError
  else if (num_points : ℤ) - 2 < 1 then .err .valueError
  else
    let high_idx := d 0
    match redrawLow high_idx d fuel 1 with
    | none => .timeout
    | some low_idx =>
      let prices := generatePrices c num_points high_idx low_idx u
      .ok ((List.range num_points).map (fun i =>
        { price := round3 (prices i)
          is_open := i == 0
          is_high := i == high_idx
          is_low := i == low_idx
          is_close := i == num_points - 1
          point_index := i
          total_points := num_points }))

/-- The fill rule as the specification words it (for refinement
comparison with generatePrices, which is translated from the source):
partition the index range into three segments by the sorted anchor
positions, (0 to first extreme), (first extreme to second extreme),
(second extreme to num_points - 1), where first/second extreme are
high_idx/low_idx sorted by position; within a segment the value at
fractional progress p between the segment anchor values a and b is
a + p * (b - a) plus a jitter of magnitude at most 0.1 * |b - a|
(u i is the jitter draw used at index i). -/
def specSegmentFill (c : Candle) (num_points high_idx low_idx : ℕ)
    (u : ℕ → ℚ) (i : ℕ) : ℚ :=
  let first := if high_idx ≤ low_idx then high_idx else low_idx
  let second := if high_idx ≤ low_idx then low_idx else high_idx
  let firstVal := if high_idx ≤ low_idx then c.high_price else c.low_price
  let secondVal := if high_idx ≤ low_idx then c.low_price else c.high_price
  if i = 0 then c.open_price
  else if i = num_points - 1 then c.close_price
  else if i = high_idx then c.high_price
  else if i = low_idx then c.low_price
  else if i < first then
    c.open_price + ((i : ℚ) / (first : ℚ)) * (firstVal - c.open_price)
      + u i * |firstVal - c.open_price|
  else if i < second then
    firstVal + (((i - first : ℕ) : ℚ) / ((second - first : ℕ) : ℚ)) * (secondVal - firstVal)
      + u i * |secondVal - firstVal|
  else
    secondVal + (((i - second : ℕ) : ℚ) / ((num_points - 1 - second : ℕ) : ℚ)) * (c.close_price - secondVal)
      + u i * |c.close_price - secondVal|

/-- The all-zero jitter stream: uniform(-0.1, 0.1) may return 0, so this
is one admissible realization of the random source. -/
def uZero : ℕ → ℚ := fun _ => 0

/-- The per-key entry of state["simulation_progress"]. -/
structure SimProgress where
  candle_index : ℕ
  point_index : ℕ
  total_candles : ℕ
  price_points : List PricePoint
deriving DecidableEq, Inhabited

/-- The simulator state dictionary.  The four per-key dictionaries are
modelled as functions from the key string to an optional entry (some
means the key is present).  current_timestamp is always None in the
modelled operations and is omitted. -/
structure SimState where
  current_candle_index : ℕ
  current_symbol : String
  current_interval : String
  price_points_returned : String → Option (List PricePoint)
  high_touched : String → Option Bool
  low_touched : String → Option Bool
  simulation_progress : String → Option SimProgress

/-- The dictionary key, the f-string "{symbol}_{interval}". -/
def simKey (symbol interval : String) : String := symbol ++ "_" ++ interval

/-- dict[key] = v. -/
def setKey {α : Type} (m : String → Option α) (key : String) (v : α) :
    String → Option α :=
  fun k => if k = key then some v else m k

/-- if key not in dict: dict[key] = v. -/
def setDefault {α : Type} (m : String → Option α) (key : String) (v : α) :
    String → Option α :=
  fun k => if k = key then some ((m key).getD v) else m k

/-- if key in dict: del dict[key]. -/
def delKey {α : Type} (m : String → Option α) (key : String) :
    String → Option α :=
  fun k => if k = key then none else m k

/-- reset_simulation: resets the cursor globals and deletes the four
per-key entries for this symbol and interval, leaving every other key
untouched.  The candle data files are not part of the state and are not
touched. -/
def resetSimulation (st : SimState) (symbol interval : String) : SimState :=
  let key := simKey symbol interval
  { st with
    current_candle_index := 0
    current_symbol := symbol
    current_interval := interval
    price_points_returned := delKey st.price_points_returned key
    high_touched := delKey st.high_touched key
    low_touched := delKey st.low_touched key
    simulation_progress := delKey st.simulation_progress key }

/-- The dictionary returned by a successful get_current_price call
(timestamp strings omitted; simulation_progress subdictionary inlined). -/
structure PriceInfo where
  symbol : String
  price : ℚ
  is_open : Bool
  is_high : Bool
  is_low : Bool
  is_close : Bool
  candle_index : ℕ
  point_index : ℕ
  total_candles : ℕ
  total_points : ℕ
  high_touched : Bool
  low_touched : Bool
deriving DecidableEq

/-- Outcome value of get_current_price: the no-data error dictionary, an
uncaught IndexError (out-of-range candle or point access), or the price
dictionary. -/
inductive GetPriceResult where
  | noData
  | indexError
  | ok (info : PriceInfo)
deriving DecidableEq

/-- A full call outcome: returned value, the in-memory state after the
call, how many candle-data file reads the call performed, and whether
_save_state persisted the state during the call. -/
structure CallOutcome where
  result : GetPriceResult
  state : SimState
  reads : ℕ
  saved : Bool

/-- The common tail of get_current_price after the price point has been
selected: update the touched flags, append to price_points_returned,
increment point_index, save, and build the returned dictionary.  ci and
pi are the local candle_index and point_index variables at that point,
tc is len(df) and tp is len(price_points). -/
def finishCall (st : SimState) (key symbol : String) (pp : PricePoint)
    (prog : SimProgress) (ci pi tc tp : ℕ) : CallOutcome :=
  let ht2 := if pp.is_high then setKey st.high_touched key true else st.high_touched
  let lt2 := if pp.is_low then setKey st.low_touched key true else st.low_touched
  let ppr2 := setKey st.price_points_returned key
    (((st.price_points_returned key).getD []) ++ [pp])
  let progF := { prog with point_index := pi + 1 }
  { result := .ok
      { symbol := symbol
        price := pp.price
        is_open := pp.is_open
        is_high := pp.is_high
        is_low := pp.is_low
        is_close := pp.is_close
        candle_index := ci
        point_index := pi
        total_candles := tc
        total_points := tp
        high_touched := (ht2 key).getD false
        low_touched := (lt2 key).getD false }
    state := { st with
      price_points_returned := ppr2
      high_touched := ht2
      low_touched := lt2
      simulation_progress := setKey st.simulation_progress key progF }
    reads := 1
    saved := true }

/-- get_current_price.  The candle data load is abstracted by env (symbol
and interval to the loaded candle list, none when no data file exists for
the key, covering the recent/1year/2years/3years fallback); gen abstracts
_generate_price_points(candle) with the default num_points=60, carrying
the process random source.  Both iloc and list indexing raise IndexError
exactly when the index is out of range, which the model reaches exactly
when the guarded list is empty. -/
def getCurrentPrice (gen : Candle → List PricePoint)
    (env : String → String → Option (List Candle))
    (st : SimState) (symbol interval : String) : CallOutcome :=
  match env symbol interval with
  | none => { result := .noData, state := st, reads := 0, saved := false }
  | some df =>
    let key := simKey symbol interval
    let st1 : SimState := { st with
      price_points_returned := setDefault st.price_points_returned key []
      high_touched := setDefault st.high_touched key false
      low_touched := setDefault st.low_touched key false
      simulation_progress := setDefault st.simulation_progress key
        ⟨0, 0, df.length, []⟩ }
    let prog0 := (st1.simulation_progress key).getD ⟨0, 0, df.length, []⟩
    -- Reset to the beginning if we have gone through all candles
    let prog1 := if df.length ≤ prog0.candle_index
      then { prog0 with candle_index := 0, point_index := 0, price_points := [] }
      else prog0
    let st2 := { st1 with
      simulation_progress := setKey st1.simulation_progress key prog1 }
    if df = [] then { result := .indexError, state := st2, reads := 1, saved := false }
    else
      let candle := df.getD prog1.candle_index default
      -- Generate price points if needed
      let prog2 := if prog1.price_points = []
        then { prog1 with price_points := gen candle }
        else prog1
      let st3 := { st2 with
        simulation_progress := setKey st2.simulation_progress key prog2 }
      let point_index0 := prog2.point_index
      let pts0 := prog2.price_points
      if pts0.length ≤ point_index0 then
        -- Move to the next candle, wrapping past the last one
        let ci1 := prog1.candle_index + 1
        let ci2 := if df.length ≤ ci1 then 0 else ci1
        let candle2 := df.getD ci2 default
        let pts1 := gen candle2
        let prog3 : SimProgress :=
          { prog2 with candle_index := ci2, point_index := 0, price_points := pts1 }
        let st4 := { st3 with
          simulation_progress := setKey st3.simulation_progress key prog3 }
        if pts1 = [] then { result := .indexError, state := st4, reads := 1, saved := false }
        else finishCall st4 key symbol (pts1.getD 0 default) prog3 ci2 0 df.length pts1.length
      else
        finishCall st3 key symbol (pts0.getD point_index0 default) prog2
          prog1.candle_index point_index0 df.length pts0.length

/-- The state left behind by one get_current_price call. -/
def callState (gen : Candle → List PricePoint)
    (env : String → String → Option (List Candle))
    (symbol interval : String) (st : SimState) : SimState :=
  (getCurrentPrice gen env st symbol interval).state

/-- n successive get_current_price calls for the same key. -/
def iterCalls (gen : Candle → List PricePoint)
    (env : String → String → Option (List Candle))
    (symbol interval : String) : ℕ → SimState → SimState
  | 0, st => st
  | n + 1, st => iterCalls gen env symbol interval n
      (callState gen env symbol interval st)

/-- The default state created by _load_state when no state file exists. -/
def emptyState : SimState :=
  { current_candle_index := 0
    current_symbol := "AVAXUSDT"
    current_interval := "1h"
    price_points_returned := fun _ => none
    high_touched := fun _ => none
    low_touched := fun _ => none
    simulation_progress := fun _ => none }

/-- Concrete candle for the low-anchor counterexample: high > low holds,
and the low price is exactly 0, the sentinel value of the fill loops. -/
def cex1 : Candle := ⟨0, 1000, 1, 2, 0, 1⟩

/-- Concrete candle from the specification scenario (section 8, item 7). -/
def c2x : Candle := ⟨0, 3600000, 10, 15, 8, 12⟩

/-- Draw stream placing high_idx = 2 then low_idx = 1. -/
def d1x : ℕ → ℕ := fun k => if k = 0 then 2 else 1

/-- Draw stream placing high_idx = 4 then low_idx = 2. -/
def d2x : ℕ → ℕ := fun k => if k = 0 then 4 else 2

/-- Draw stream placing high_idx = 1 then low_idx = 2. -/
def dW : ℕ → ℕ := fun k => if k = 0 then 1 else 2

/-- A deterministic stand-in path generator for engine-level checks:
one point per candle, carrying the open price. -/
def genW : Candle → List PricePoint :=
  fun c => [⟨c.open_price, true, false, false, true, 0, 1⟩]

/-- One-candle data environment. -/
def envW : String → String → Option (List Candle) :=
  fun s i => if s = "AVAXUSDT" ∧ i = "1h" then some [c2x] else none

/-- Two-candle data environment. -/
def dfW : List Candle := [cex1, c2x]

/-- Environment serving the two-candle list. -/
def envW2 : String → String → Option (List Candle) :=
  fun s i => if s = "BTCUSDT" ∧ i = "1h" then some dfW else none

/-- A state holding a progress entry at the joined key "a_b_c", reachable
for both (symbol, interval) pairs ("a_b", "c") and ("a", "b_c"). -/
def stColl : SimState :=
  { emptyState with
    simulation_progress := fun k => if k = "a_b_c" then some ⟨0, 0, 1, []⟩ else none }

theorem setIdx_same (p : ℕ → ℚ) (i : ℕ) (v : ℚ) : setIdx p i v i = v := by
  simp [setIdx]

theorem setIdx_other (p : ℕ → ℚ) (i j : ℕ) (v : ℚ) (h : j ≠ i) :
    setIdx p i v j = p j := by
  simp [setIdx, h]

theorem mem_pyRange (a b i : ℕ) : i ∈ pyRange a b ↔ a ≤ i ∧ i < b := by
  rw [pyRange, List.mem_range'_1]
  omega

theorem fillStep_untouched (u : ℕ → ℚ) (base : (ℕ → ℚ) → ℕ → ℚ)
    (mag : (ℕ → ℚ) → ℚ) (pc : (ℕ → ℚ) × ℕ) (i j : ℕ) (h : j ≠ i) :
    (fillStep u base mag pc i).1 j = pc.1 j := by
  unfold fillStep
  split
  · exact setIdx_other _ _ _ _ h
  · rfl

theorem foldl_fillStep_untouched (u : ℕ → ℚ) (base : (ℕ → ℚ) → ℕ → ℚ)
    (mag : (ℕ → ℚ) → ℚ) (l : List ℕ) (pc : (ℕ → ℚ) × ℕ) (j : ℕ) (h : j ∉ l) :
    (l.foldl (fillStep u base mag) pc).1 j = pc.1 j := by
  induction l generalizing pc with
  | nil => rfl
  | cons a l ih =>
    simp only [List.mem_cons, not_or] at h
    rw [List.foldl_cons, ih _ h.2, fillStep_untouched _ _ _ _ _ _ h.1]

theorem fillLoop_untouched (u : ℕ → ℚ) (base : (ℕ → ℚ) → ℕ → ℚ)
    (mag : (ℕ → ℚ) → ℚ) (a b : ℕ) (pc : (ℕ → ℚ) × ℕ) (j : ℕ)
    (h : j < a ∨ b ≤ j) :
    (fillLoop u base mag a b pc).1 j = pc.1 j := by
  apply foldl_fillStep_untouched
  rw [mem_pyRange]
  omega

theorem foldl_fillStep_zero_run (u : ℕ → ℚ) (B : ℕ → ℚ) (M : ℚ) (len : ℕ) :
    ∀ (a : ℕ) (pc : (ℕ → ℚ) × ℕ) (i : ℕ), a ≤ i → i < a + len →
      (∀ j, a ≤ j → j ≤ i → pc.1 j = 0) →
      ((List.range' a len).foldl (fillStep u (fun _ j => B j) (fun _ => M)) pc).1 i
        = B i + u (pc.2 + (i - a)) * M := by
  induction len with
  | zero => intro a pc i h1 h2; omega
  | succ n ih =>
    intro a pc i hlo hhi hzero
    rw [List.range'_succ, List.foldl_cons]
    have hpa : pc.1 a = 0 := hzero a le_rfl hlo
    have hstep : fillStep u (fun _ j => B j) (fun _ => M) pc a
        = (setIdx pc.1 a (B a + u pc.2 * M), pc.2 + 1) := by
      unfold fillStep
      rw [if_pos hpa]
    rcases Nat.eq_or_lt_of_le hlo with heq | hlt
    · subst heq
      rw [hstep, foldl_fillStep_untouched]
      · simp [setIdx]
      · rw [List.mem_range'_1]
        omega
    · rw [hstep]
      have hz2 : ∀ j, a + 1 ≤ j → j ≤ i →
          setIdx pc.1 a (B a + u pc.2 * M) j = 0 := by
        intro j hj1 hj2
        rw [setIdx_other _ _ _ _ (by omega)]
        exact hzero j (by omega) hj2
      have hres := ih (a + 1) (setIdx pc.1 a (B a + u pc.2 * M), pc.2 + 1) i
        (by omega) (by omega) hz2
      have harg : (setIdx pc.1 a (B a + u pc.2 * M), pc.2 + 1).2 + (i - (a + 1))
          = pc.2 + (i - a) := by
        show pc.2 + 1 + (i - (a + 1)) = pc.2 + (i - a)
        omega
      rw [hres, harg]

theorem fillLoop_zero_run (u : ℕ → ℚ) (B : ℕ → ℚ) (M : ℚ) (a b : ℕ)
    (pc : (ℕ → ℚ) × ℕ) (i : ℕ) (hlo : a ≤ i) (hhi : i < b)
    (hzero : ∀ j, a ≤ j → j ≤ i → pc.1 j = 0) :
    (fillLoop u (fun _ j => B j) (fun _ => M) a b pc).1 i
      = B i + u (pc.2 + (i - a)) * M := by
  apply foldl_fillStep_zero_run u B M (b - a) a pc i hlo (by omega) hzero

theorem redrawLow_all_eq (h : ℕ) (d : ℕ → ℕ) (hd : ∀ j, d j = h) :
    ∀ fuel k, redrawLow h d fuel k = none := by
  intro fuel
  induction fuel with
  | zero => intro k; rfl
  | succ n ih =>
    intro k
    unfold redrawLow
    rw [if_pos (hd k)]
    exact ih (k + 1)

theorem redrawLow_succeeds (h : ℕ) (d : ℕ → ℕ) :
    ∀ fuel start, (∃ k, start ≤ k ∧ k < start + fuel ∧ d k ≠ h) →
      ∃ lo k, redrawLow h d fuel start = some lo ∧ lo = d k ∧ start ≤ k ∧ d k ≠ h := by
  intro fuel
  induction fuel with
  | zero =>
    intro start hex
    obtain ⟨k, h1, h2, _⟩ := hex
    omega
  | succ n ih =>
    intro start hex
    unfold redrawLow
    by_cases hds : d start = h
    · rw [if_pos hds]
      obtain ⟨k, h1, h2, h3⟩ := hex
      have hks : start + 1 ≤ k := by
        rcases Nat.eq_or_lt_of_le h1 with heq | hlt
        · exact absurd (heq ▸ hds) h3
        · omega
      obtain ⟨lo, k2, hr, he, hk2, hne⟩ := ih (start + 1) ⟨k, hks, by omega, h3⟩
      exact ⟨lo, k2, hr, he, by omega, hne⟩
    · rw [if_neg hds]
      exact ⟨d start, start, rfl, rfl, le_rfl, hds⟩

theorem redrawLow_characterize (h : ℕ) (d : ℕ → ℕ) :
    ∀ fuel start lo, redrawLow h d fuel start = some lo →
      lo ≠ h ∧ ∃ k, start ≤ k ∧ lo = d k := by
  intro fuel
  induction fuel with
  | zero => intro start lo hr; exact absurd hr (by simp [redrawLow])
  | succ n ih =>
    intro start lo hr
    unfold redrawLow at hr
    by_cases hds : d start = h
    · rw [if_pos hds] at hr
      obtain ⟨h1, k, h2, h3⟩ := ih (start + 1) lo hr
      exact ⟨h1, k, by omega, h3⟩
    · rw [if_neg hds] at hr
      obtain rfl : d start = lo := by simpa using hr
      exact ⟨hds, start, le_rfl, rfl⟩

/-- C3: for num_points = 3, the generator does not reject the call; the
redraw loop never terminates.  random.randint(1, 3 - 2) = randint(1, 1)
always returns 1, so the constant-1 stream is the only possible draw
stream for num_points = 3; high_idx = 1 = every subsequent low_idx draw,
and the while loop redrawing low_idx runs forever (timeout for every
fuel).  The call neither raises an invalid-argument error nor returns. -/
theorem c3_num_points_three_loops_forever (c : Candle) (u : ℕ → ℚ) (fuel : ℕ) :
    generatePricePoints c 3 (fun _ => 1) u fuel = .timeout := by
  unfold generatePricePoints
  rw [if_neg (by omega), if_neg (by norm_num)]
  simp only [redrawLow_all_eq 1 (fun _ => 1) (fun _ => rfl) fuel 1]

theorem generatePricePoints_ok_eq (c : Candle) (n : ℕ) (d : ℕ → ℕ) (u : ℕ → ℚ)
    (fuel : ℕ) (lo : ℕ) (h1 : n ≠ 1) (h2 : (1 : ℤ) ≤ (n : ℤ) - 2)
    (hr : redrawLow (d 0) d fuel 1 = some lo) :
    generatePricePoints c n d u fuel =
      .ok ((List.range n).map (fun i =>
        { price := round3 (generatePrices c n (d 0) lo u i)
          is_open := i == 0
          is_high := i == d 0
          is_low := i == lo
          is_close := i == n - 1
          point_index := i
          total_points := n })) := by
  unfold generatePricePoints
  rw [if_neg h1, if_neg (by omega)]
  simp only [hr]

theorem range_map_getD (n i : ℕ) (f : ℕ → PricePoint) (h : i < n) :
    ((List.range n).map f).getD i default = f i := by
  rw [List.getD_eq_getElem?_getD, List.getElem?_map, List.getElem?_range h]
  rfl

/-- C1 (code bug): the candle (open 1, high 2, low 0, close 1) has
high > low, and with num_points = 4, draws high_idx = 2 then low_idx = 1
and zero jitter, the generated path has its unique is_low point at index
1 carrying price 3/2 instead of the candle low 0 = round(0, 3): the
first gap-filling loop overwrites the low anchor because its sentinel
test prices[i] == 0 cannot tell the anchor value 0 from an unset slot,
contradicting the docstring promise that high and low are touched. -/
theorem c1_low_anchor_overwritten :
    (generatePricePoints cex1 4 d1x uZero 2).getPath.length = 4 ∧
    ((generatePricePoints cex1 4 d1x uZero 2).getPath.getD 1 default).is_low = true ∧
    ((generatePricePoints cex1 4 d1x uZero 2).getPath.getD 1 default).price = 3 / 2 ∧
    round3 cex1.low_price = 0 ∧ (3 / 2 : ℚ) ≠ 0 := by
  have hr : redrawLow (d1x 0) d1x 2 1 = some 1 := by decide
  have heq := generatePricePoints_ok_eq cex1 4 d1x uZero 2 1 (by omega) (by norm_num) hr
  rw [heq]
  simp only [GenResult.getPath]
  refine ⟨by simp, ?_, ?_, by norm_num [cex1, round3, round_eq], by norm_num⟩
  · rw [range_map_getD 4 1 _ (by omega)]
    rfl
  · rw [range_map_getD 4 1 _ (by omega)]
    show round3 (generatePrices cex1 4 (d1x 0) 1 uZero 1) = 3 / 2
    have hd0 : d1x 0 = 2 := rfl
    rw [hd0]
    have hval : generatePrices cex1 4 2 1 uZero 1 = 3 / 2 := by
      norm_num [generatePrices, fillLoop, pyRange, List.range', fillStep, setIdx, uZero, cex1]
    rw [hval]
    norm_num [round3, round_eq]

theorem anchorArray_zero (c : Candle) (n hi lo j : ℕ)
    (h0 : j ≠ 0) (hn : j ≠ n - 1) (hh : j ≠ hi) (hl : j ≠ lo) :
    setIdx (setIdx (setIdx (setIdx (fun _ => (0 : ℚ)) 0 c.open_price)
      (n - 1) c.close_price) hi c.high_price) lo c.low_price j = 0 := by
  rw [setIdx_other _ _ _ _ hl, setIdx_other _ _ _ _ hh,
    setIdx_other _ _ _ _ hn, setIdx_other _ _ _ _ h0]

/-- C2 (amended): when low_idx < high_idx, an index i strictly between 0
and low_idx is filled by the first loop, which interpolates between open
and HIGH with progress i / high_idx (not between open and low), with a
jitter draw scaled by (high - open); the draw consumed at index i is the
(i - 1)-th jitter draw, since the loop fills indices 1, ..., i in order. -/
theorem c2_amended_open_to_high (c : Candle) (n hi lo : ℕ) (u : ℕ → ℚ) (i : ℕ)
    (h0 : 0 < i) (hilo : i < lo) (hlohi : lo < hi) (hhin : hi + 2 ≤ n) :
    generatePrices c n hi lo u i =
      c.open_price + ((i : ℚ) / (hi : ℚ)) * (c.high_price - c.open_price)
        + u (i - 1) * (c.high_price - c.open_price) := by
  have hnle : ¬ hi ≤ lo := by omega
  have hpos : 0 < hi := by omega
  simp only [generatePrices, if_pos hpos, if_neg hnle]
  have hrun := fillLoop_zero_run u
    (fun j => c.open_price + ((j : ℚ) / (hi : ℚ)) * (c.high_price - c.open_price))
    (c.high_price - c.open_price) 1 hi
    (setIdx (setIdx (setIdx (setIdx (fun _ => (0 : ℚ)) 0 c.open_price)
      (n - 1) c.close_price) hi c.high_price) lo c.low_price, 0)
    i (by omega) (by omega)
    (fun j h1 h2 => anchorArray_zero c n hi lo j (by omega) (by omega) (by omega) (by omega))
  split_ifs with g2 g3 g4
  · rw [fillLoop_untouched _ _ _ _ _ _ i (Or.inl (by omega)),
      fillLoop_untouched _ _ _ _ _ _ i (Or.inl (by omega)), hrun]
    norm_num
  · rw [fillLoop_untouched _ _ _ _ _ _ i (Or.inl (by omega)), hrun]
    norm_num
  · rw [fillLoop_untouched _ _ _ _ _ _ i (Or.inl (by omega)), hrun]
    norm_num
  · rw [hrun]
    norm_num

/-- C2 (counterexample): for the candle (open 10, high 15, low 8, close
12) with num_points = 6, draws low_idx = 2 < high_idx = 4 and zero
jitter, the claimed segment rule assigns index 1 to the open-to-low
segment, giving 10 + (1/2)(8 - 10) + jitter = 9 + jitter with
|jitter| ≤ 0.1 * |8 - 10| = 1/5; the code instead produces 45/4 at index
1, which differs from 9 by 9/4 > 1/5, so no admissible jitter draw can
reconcile the two: indices below low_idx are interpolated between open
and high, not open and low. -/
theorem c2_counterexample_first_segment :
    specSegmentFill c2x 6 4 2 uZero 1 = 9 ∧
    ((generatePricePoints c2x 6 d2x uZero 2).getPath.getD 1 default).price = 45 / 4 ∧
    (1 / 10 : ℚ) * |c2x.low_price - c2x.open_price|
      < |45 / 4 - (c2x.open_price + (1 / 2 : ℚ) * (c2x.low_price - c2x.open_price))| := by
  refine ⟨by norm_num [specSegmentFill, c2x, uZero], ?_, ?_⟩
  case refine_2 =>
    norm_num [c2x]
    rw [abs_of_pos (by norm_num)]
    norm_num
  have hr : redrawLow (d2x 0) d2x 2 1 = some 2 := by decide
  have heq := generatePricePoints_ok_eq c2x 6 d2x uZero 2 2 (by omega) (by norm_num) hr
  rw [heq]
  simp only [GenResult.getPath]
  rw [range_map_getD 6 1 _ (by omega)]
  show round3 (generatePrices c2x 6 (d2x 0) 2 uZero 1) = 45 / 4
  have hd0 : d2x 0 = 4 := rfl
  rw [hd0]
  have hval : generatePrices c2x 6 4 2 uZero 1 = 45 / 4 := by
    norm_num [generatePrices, fillLoop, pyRange, List.range', fillStep, setIdx, uZero, c2x]
  rw [hval]
  norm_num [round3, round_eq]

/-- C2 (witness for the amended theorem): at the concrete instance used in
the counterexample, index 1 lies strictly between 0 and low_idx = 2 with
low_idx < high_idx = 4 and high_idx + 2 ≤ 6, and the value produced by
the code is open + (1/4)(high - open) + u0 * (high - open). -/
theorem c2_amended_open_to_high_witness :
    generatePrices c2x 6 4 2 uZero 1 =
      c2x.open_price + ((1 : ℚ) / (4 : ℚ)) * (c2x.high_price - c2x.open_price)
        + uZero 0 * (c2x.high_price - c2x.open_price) := by
  have h := c2_amended_open_to_high c2x 6 4 2 uZero 1 (by omega) (by omega) (by omega) (by omega)
  simpa using h

theorem fill_const_fold (u : ℕ → ℚ) (base : (ℕ → ℚ) → ℕ → ℚ) (mag : (ℕ → ℚ) → ℚ)
    (v : ℚ) (P : (ℕ → ℚ) → Prop)
    (hP : ∀ p i, P p → P (setIdx p i v))
    (hbase : ∀ p i, P p → base p i = v)
    (hmag : ∀ p, P p → mag p = 0)
    (l : List ℕ) :
    ∀ pc : (ℕ → ℚ) × ℕ, P pc.1 → (∀ j, pc.1 j = v ∨ pc.1 j = 0) →
      P (l.foldl (fillStep u base mag) pc).1 ∧
      (∀ j, (l.foldl (fillStep u base mag) pc).1 j = v ∨
        (l.foldl (fillStep u base mag) pc).1 j = 0) ∧
      (∀ j ∈ l, (l.foldl (fillStep u base mag) pc).1 j = v) ∧
      (∀ j, pc.1 j = v → (l.foldl (fillStep u base mag) pc).1 j = v) := by
  induction l with
  | nil =>
    intro pc h1 h2
    exact ⟨h1, h2, by simp, fun j h => h⟩
  | cons a l ih =>
    intro pc hP1 hall
    rw [List.foldl_cons]
    by_cases ha : pc.1 a = 0
    · have hstep : fillStep u base mag pc a = (setIdx pc.1 a v, pc.2 + 1) := by
        unfold fillStep
        rw [if_pos ha, hbase _ _ hP1, hmag _ hP1, mul_zero, add_zero]
      rw [hstep]
      have hP2 : P (setIdx pc.1 a v) := hP _ _ hP1
      have hall2 : ∀ j, setIdx pc.1 a v j = v ∨ setIdx pc.1 a v j = 0 := by
        intro j
        by_cases hj : j = a
        · subst hj
          rw [setIdx_same]
          exact Or.inl rfl
        · rw [setIdx_other _ _ _ _ hj]
          exact hall j
      obtain ⟨q1, q2, q3, q4⟩ := ih (setIdx pc.1 a v, pc.2 + 1) hP2 hall2
      refine ⟨q1, q2, ?_, ?_⟩
      · intro j hj
        rcases List.mem_cons.mp hj with rfl | hjl
        · exact q4 j (setIdx_same _ _ _)
        · exact q3 j hjl
      · intro j hjv
        refine q4 j ?_
        show setIdx pc.1 a v j = v
        by_cases hj : j = a
        · subst hj
          exact setIdx_same _ _ _
        · rw [setIdx_other _ _ _ _ hj]
          exact hjv
    · have hstep : fillStep u base mag pc a = pc := by
        unfold fillStep
        rw [if_neg ha]
      rw [hstep]
      obtain ⟨q1, q2, q3, q4⟩ := ih pc hP1 hall
      refine ⟨q1, q2, ?_, q4⟩
      intro j hj
      rcases List.mem_cons.mp hj with rfl | hjl
      · exact q4 j ((hall j).resolve_right ha)
      · exact q3 j hjl

theorem generatePrices_degenerate (t ct : ℤ) (v : ℚ) (n hi lo : ℕ) (u : ℕ → ℚ)
    (hhi1 : 1 ≤ hi) (hhi2 : hi ≤ n - 2) (hlo1 : 1 ≤ lo) (hlo2 : lo ≤ n - 2)
    (hne : hi ≠ lo) (hn : 4 ≤ n) (i : ℕ) (hin : i < n) :
    generatePrices ⟨t, ct, v, v, v, v⟩ n hi lo u i = v := by
  have h0hi : 0 < hi := by omega
  simp only [generatePrices, fillLoop, if_pos h0hi]
  set mn := if hi ≤ lo then hi else lo with hmn
  set mx := if hi ≤ lo then lo else hi with hmx
  have hcases : (hi < lo ∧ mn = hi ∧ mx = lo) ∨ (lo < hi ∧ mn = lo ∧ mx = hi) := by
    rw [hmn, hmx]
    split_ifs with h
    · exact Or.inl ⟨by omega, rfl, rfl⟩
    · exact Or.inr ⟨by omega, rfl, rfl⟩
  have hmn1 : 1 ≤ mn := by rcases hcases with ⟨h0, h1, h2⟩ | ⟨h0, h1, h2⟩ <;> omega
  have hmnmx : mn < mx := by
    rcases hcases with ⟨h0, h1, h2⟩ | ⟨h0, h1, h2⟩ <;> omega
  have hmx2 : mx ≤ n - 2 := by rcases hcases with ⟨h0, h1, h2⟩ | ⟨h0, h1, h2⟩ <;> omega
  set p4 := setIdx (setIdx (setIdx (setIdx (fun _ => (0 : ℚ)) 0 v) (n - 1) v) hi v) lo v
    with hp4
  have hPsave : ∀ (p : ℕ → ℚ) (k : ℕ), (p mn = v ∧ p mx = v) →
      (setIdx p k v mn = v ∧ setIdx p k v mx = v) := by
    intro p k ⟨h1, h2⟩
    constructor
    · by_cases h : mn = k
      · subst h
        exact setIdx_same _ _ _
      · rw [setIdx_other _ _ _ _ h]
        exact h1
    · by_cases h : mx = k
      · subst h
        exact setIdx_same _ _ _
      · rw [setIdx_other _ _ _ _ h]
        exact h2
  have hp4P : p4 mn = v ∧ p4 mx = v := by
    constructor
    · rcases hcases with ⟨h0, h1, _⟩ | ⟨h0, h1, _⟩
      · rw [hp4, h1, setIdx_other _ _ _ _ hne, setIdx_same]
      · rw [hp4, h1, setIdx_same]
    · rcases hcases with ⟨h0, _, h2⟩ | ⟨h0, _, h2⟩
      · rw [hp4, h2, setIdx_same]
      · rw [hp4, h2, setIdx_other _ _ _ _ hne, setIdx_same]
  have hp4all : ∀ j, p4 j = v ∨ p4 j = 0 := by
    intro j
    rw [hp4]
    simp only [setIdx]
    split_ifs <;> simp
  obtain ⟨A1P, A1all, A1mem, A1pres⟩ :=
    fill_const_fold u
      (fun _ k => v + ((k : ℚ) / (hi : ℚ)) * (v - v))
      (fun _ => v - v)
      v (fun p => p mn = v ∧ p mx = v) hPsave
      (by intro p k _; ring)
      (by intro p _; exact sub_self v)
      (pyRange 1 hi) (p4, 0) hp4P hp4all
  obtain ⟨A2P, A2all, A2mem, A2pres⟩ :=
    fill_const_fold u
      (fun p k => p mn + (((k - mn : ℕ) : ℚ) / ((mx - mn : ℕ) : ℚ)) * (p mx - p mn))
      (fun p => |p mx - p mn|)
      v (fun p => p mn = v ∧ p mx = v) hPsave
      (by
        intro p k hp
        show p mn + (((k - mn : ℕ) : ℚ) / ((mx - mn : ℕ) : ℚ)) * (p mx - p mn) = v
        rw [hp.1, hp.2]
        ring)
      (by
        intro p hp
        show |p mx - p mn| = 0
        rw [hp.1, hp.2, sub_self, abs_zero])
      (pyRange (mn + 1) mx)
      ((pyRange 1 hi).foldl
        (fillStep u (fun _ k => v + ((k : ℚ) / (hi : ℚ)) * (v - v)) (fun _ => v - v))
        (p4, 0))
      A1P A1all
  obtain ⟨A3P, A3all, A3mem, A3pres⟩ :=
    fill_const_fold u
      (fun p k => p mx + (((k - mx : ℕ) : ℚ) / ((n - 1 - mx : ℕ) : ℚ)) * (v - p mx))
      (fun p => |v - p mx|)
      v (fun p => p mn = v ∧ p mx = v) hPsave
      (by
        intro p k hp
        show p mx + (((k - mx : ℕ) : ℚ) / ((n - 1 - mx : ℕ) : ℚ)) * (v - p mx) = v
        rw [hp.2]
        ring)
      (by
        intro p hp
        show |v - p mx| = 0
        rw [hp.2, sub_self, abs_zero])
      (pyRange (mx + 1) (n - 1))
      ((pyRange (mn + 1) mx).foldl
        (fillStep u
          (fun p k => p mn + (((k - mn : ℕ) : ℚ) / ((mx - mn : ℕ) : ℚ)) * (p mx - p mn))
          (fun p => |p mx - p mn|))
        ((pyRange 1 hi).foldl
          (fillStep u (fun _ k => v + ((k : ℚ) / (hi : ℚ)) * (v - v)) (fun _ => v - v))
          (p4, 0)))
      A2P A2all
  have hG3 : (mx : ℤ) < (n : ℤ) - 1 := by omega
  rw [if_pos hG3]
  have hif2 : (if (mn : ℤ) < (mx : ℤ) - 1 then
      (pyRange (mn + 1) mx).foldl
        (fillStep u
          (fun p k => p mn + (((k - mn : ℕ) : ℚ) / ((mx - mn : ℕ) : ℚ)) * (p mx - p mn))
          (fun p => |p mx - p mn|))
        ((pyRange 1 hi).foldl
          (fillStep u (fun _ k => v + ((k : ℚ) / (hi : ℚ)) * (v - v)) (fun _ => v - v))
          (p4, 0))
    else
      (pyRange 1 hi).foldl
        (fillStep u (fun _ k => v + ((k : ℚ) / (hi : ℚ)) * (v - v)) (fun _ => v - v))
        (p4, 0)) =
      (pyRange (mn + 1) mx).foldl
        (fillStep u
          (fun p k => p mn + (((k - mn : ℕ) : ℚ) / ((mx - mn : ℕ) : ℚ)) * (p mx - p mn))
          (fun p => |p mx - p mn|))
        ((pyRange 1 hi).foldl
          (fillStep u (fun _ k => v + ((k : ℚ) / (hi : ℚ)) * (v - v)) (fun _ => v - v))
          (p4, 0)) := by
    split_ifs with hg2
    · rfl
    · rw [show pyRange (mn + 1) mx = [] from by
        simp [pyRange, show mx - (mn + 1) = 0 from by omega]]
      rfl
  rw [hif2]
  have hchain : ∀ j, p4 j = v →
      ((pyRange (mx + 1) (n - 1)).foldl
        (fillStep u
          (fun p k => p mx + (((k - mx : ℕ) : ℚ) / ((n - 1 - mx : ℕ) : ℚ)) * (v - p mx))
          (fun p => |v - p mx|))
        ((pyRange (mn + 1) mx).foldl
          (fillStep u
            (fun p k => p mn + (((k - mn : ℕ) : ℚ) / ((mx - mn : ℕ) : ℚ)) * (p mx - p mn))
            (fun p => |p mx - p mn|))
          ((pyRange 1 hi).foldl
            (fillStep u (fun _ k => v + ((k : ℚ) / (hi : ℚ)) * (v - v)) (fun _ => v - v))
            (p4, 0)))).1 j = v :=
    fun j h => A3pres j (A2pres j (A1pres j h))
  have hcover : (i = 0 ∨ i = n - 1 ∨ i = hi ∨ i = lo) ∨
      (1 ≤ i ∧ i < hi) ∨ (mn + 1 ≤ i ∧ i < mx) ∨ (mx + 1 ≤ i ∧ i < n - 1) := by
    rcases hcases with ⟨h0, h1, h2⟩ | ⟨h0, h1, h2⟩ <;> omega
  rcases hcover with (h | h | h | h) | h | h | h
  · apply hchain
    rw [hp4, h, setIdx_other _ _ _ _ (by omega), setIdx_other _ _ _ _ (by omega),
      setIdx_other _ _ _ _ (by omega), setIdx_same]
  · apply hchain
    rw [hp4, h, setIdx_other _ _ _ _ (by omega), setIdx_other _ _ _ _ (by omega),
      setIdx_same]
  · apply hchain
    rw [hp4, h, setIdx_other _ _ _ _ hne, setIdx_same]
  · apply hchain
    rw [hp4, h, setIdx_same]
  · exact A3pres i (A2pres i (A1mem i ((mem_pyRange 1 hi i).mpr ⟨h.1, h.2⟩)))
  · exact A3pres i (A2mem i ((mem_pyRange (mn + 1) mx i).mpr ⟨h.1, h.2⟩))
  · exact A3mem i ((mem_pyRange (mx + 1) (n - 1) i).mpr ⟨h.1, h.2⟩)

/-- C8: for a degenerate candle with open = high = low = close = v and any
num_points = n ≥ 4, the call raises no error (the only non-returning
behaviour left is the redraw loop, excluded by the termination
hypothesis, which holds with probability one for the random stream): it
returns a path of length n whose prices all equal round(v, 3) because
every jitter magnitude collapses to zero, with the is_high flag exactly
at the drawn index d 0 and the is_low flag exactly at the redrawn low
index, both strictly between 0 and n - 1 and distinct from each other. -/
theorem c8_degenerate_candle (t ct : ℤ) (v : ℚ) (n : ℕ) (d : ℕ → ℕ) (u : ℕ → ℚ)
    (fuel : ℕ) (hn : 4 ≤ n)
    (hd : ∀ i, 1 ≤ d i ∧ d i ≤ n - 2)
    (hterm : ∃ k, 1 ≤ k ∧ k ≤ fuel ∧ d k ≠ d 0) :
    ∃ pts lo, generatePricePoints ⟨t, ct, v, v, v, v⟩ n d u fuel = .ok pts ∧
      pts.length = n ∧
      (∀ pt ∈ pts, pt.price = round3 v) ∧
      lo ≠ d 0 ∧ 1 ≤ lo ∧ lo ≤ n - 2 ∧ 1 ≤ d 0 ∧ d 0 ≤ n - 2 ∧
      (∀ pt ∈ pts, pt.is_high = (pt.point_index == d 0)) ∧
      (∀ pt ∈ pts, pt.is_low = (pt.point_index == lo)) := by
  obtain ⟨k, hk1, hk2, hk3⟩ := hterm
  obtain ⟨lo, k2, hredraw, heq2, hk2ge, hne2⟩ :=
    redrawLow_succeeds (d 0) d fuel 1 ⟨k, hk1, by omega, hk3⟩
  have hhib := hd 0
  have hlo1 : 1 ≤ lo := by rw [heq2]; exact (hd k2).1
  have hlo2 : lo ≤ n - 2 := by rw [heq2]; exact (hd k2).2
  have hlone : lo ≠ d 0 := by rw [heq2]; exact hne2
  have heqok := generatePricePoints_ok_eq ⟨t, ct, v, v, v, v⟩ n d u fuel lo
    (by omega) (by omega) hredraw
  refine ⟨_, lo, heqok, by simp, ?_, hlone, hlo1, hlo2, hhib.1, hhib.2, ?_, ?_⟩
  · intro pt hpt
    obtain ⟨i, hi1, rfl⟩ := List.mem_map.mp hpt
    have hin : i < n := List.mem_range.mp hi1
    show round3 (generatePrices ⟨t, ct, v, v, v, v⟩ n (d 0) lo u i) = round3 v
    rw [generatePrices_degenerate t ct v n (d 0) lo u hhib.1 hhib.2 hlo1 hlo2
      (fun h => hlone h.symm) hn i hin]
  · intro pt hpt
    obtain ⟨i, hi1, rfl⟩ := List.mem_map.mp hpt
    rfl
  · intro pt hpt
    obtain ⟨i, hi1, rfl⟩ := List.mem_map.mp hpt
    rfl

/-- C8 witness: the degenerate candle at value 100 with num_points = 4,
draws high_idx = 1 then low_idx = 2, zero jitter draws and fuel 1. -/
theorem c8_degenerate_candle_witness :
    ∃ pts lo, generatePricePoints ⟨0, 0, 100, 100, 100, 100⟩ 4 dW uZero 1 = .ok pts ∧
      pts.length = 4 ∧
      (∀ pt ∈ pts, pt.price = round3 100) ∧
      lo ≠ dW 0 ∧ 1 ≤ lo ∧ lo ≤ 4 - 2 ∧ 1 ≤ dW 0 ∧ dW 0 ≤ 4 - 2 ∧
      (∀ pt ∈ pts, pt.is_high = (pt.point_index == dW 0)) ∧
      (∀ pt ∈ pts, pt.is_low = (pt.point_index == lo)) :=
  c8_degenerate_candle 0 0 100 4 dW uZero 1 (by omega)
    (fun i => by by_cases h : i = 0 <;> simp [dW, h])
    ⟨1, le_rfl, le_rfl, by decide⟩

/-- C9: when no candle data file exists for the key, get_current_price
returns the error dictionary before any state access: the state comes
back unchanged, no file read happens and nothing is persisted. -/
theorem c9_no_data_atomic (gen : Candle → List PricePoint)
    (env : String → String → Option (List Candle)) (st : SimState)
    (symbol interval : String) (h : env symbol interval = none) :
    getCurrentPrice gen env st symbol interval =
      { result := .noData, state := st, reads := 0, saved := false } := by
  unfold getCurrentPrice
  rw [h]

/-- C9 witness: the empty environment with the default state. -/
theorem c9_no_data_atomic_witness :
    getCurrentPrice genW (fun _ _ => none) emptyState "BTCUSDT" "4h" =
      { result := .noData, state := emptyState, reads := 0, saved := false } :=
  c9_no_data_atomic genW (fun _ _ => none) emptyState "BTCUSDT" "4h" rfl

theorem getCurrentPrice_reads_of_some (gen : Candle → List PricePoint)
    (env : String → String → Option (List Candle)) (st : SimState)
    (symbol interval : String) (df : List Candle)
    (h : env symbol interval = some df) :
    (getCurrentPrice gen env st symbol interval).reads = 1 := by
  simp only [getCurrentPrice, h]
  split_ifs <;> simp [finishCall]

/-- C7 (amended): every get_current_price call for a key with available
candle data performs exactly one read of the candle data files; the load
is repeated on every call, it is not cached. -/
theorem c7_amended_one_read_per_call (gen : Candle → List PricePoint)
    (env : String → String → Option (List Candle)) (st : SimState)
    (symbol interval : String) (df : List Candle)
    (h : env symbol interval = some df) :
    (getCurrentPrice gen env st symbol interval).reads = 1 :=
  getCurrentPrice_reads_of_some gen env st symbol interval df h

/-- C7 (counterexample): with candle data present, a first call loads the
data (one read), and the call immediately following it performs another
read: the loaded sequence is re-read on every call, not cached. -/
theorem c7_counterexample_second_call_reads :
    (getCurrentPrice genW envW emptyState "AVAXUSDT" "1h").reads = 1 ∧
    (getCurrentPrice genW envW
      (getCurrentPrice genW envW emptyState "AVAXUSDT" "1h").state
      "AVAXUSDT" "1h").reads = 1 := by
  constructor
  · exact getCurrentPrice_reads_of_some genW envW emptyState "AVAXUSDT" "1h" [c2x] rfl
  · exact getCurrentPrice_reads_of_some genW envW _ "AVAXUSDT" "1h" [c2x] rfl

/-- C7 witness for the amended theorem: a concrete call with data
present performs exactly one read. -/
theorem c7_amended_one_read_per_call_witness :
    (getCurrentPrice genW envW emptyState "AVAXUSDT" "1h").reads = 1 :=
  c7_amended_one_read_per_call genW envW emptyState "AVAXUSDT" "1h" [c2x] rfl

theorem resetSimulation_frame (st : SimState) (symbol interval : String) (k : String)
    (hk : k ≠ simKey symbol interval) :
    (resetSimulation st symbol interval).price_points_returned k
        = st.price_points_returned k ∧
    (resetSimulation st symbol interval).high_touched k = st.high_touched k ∧
    (resetSimulation st symbol interval).low_touched k = st.low_touched k ∧
    (resetSimulation st symbol interval).simulation_progress k
        = st.simulation_progress k := by
  unfold resetSimulation
  refine ⟨?_, ?_, ?_, ?_⟩ <;> simp [delKey, hk]

theorem getCurrentPrice_frame (gen : Candle → List PricePoint)
    (env : String → String → Option (List Candle)) (st : SimState)
    (symbol interval : String) (k : String)
    (hk : k ≠ simKey symbol interval) :
    (getCurrentPrice gen env st symbol interval).state.price_points_returned k
        = st.price_points_returned k ∧
    (getCurrentPrice gen env st symbol interval).state.high_touched k
        = st.high_touched k ∧
    (getCurrentPrice gen env st symbol interval).state.low_touched k
        = st.low_touched k ∧
    (getCurrentPrice gen env st symbol interval).state.simulation_progress k
        = st.simulation_progress k := by
  cases henv : env symbol interval with
  | none => simp [getCurrentPrice, henv]
  | some df =>
    simp only [getCurrentPrice, henv, finishCall]
    split_ifs <;> refine ⟨?_, ?_, ?_, ?_⟩ <;> simp [setKey, setDefault, hk]

/-- C10 (amended): per-key isolation holds for every pair of
(symbol, interval) pairs whose joined key strings
symbol ++ "_" ++ interval differ (rather than for every pair of distinct
(symbol, interval) pairs): both get_current_price and reset_simulation
on the first pair leave the entries of the second pair in all four
per-key dictionaries unchanged. -/
theorem c10_key_isolation (gen : Candle → List PricePoint)
    (env : String → String → Option (List Candle)) (st : SimState)
    (s1 i1 s2 i2 : String) (hk : simKey s1 i1 ≠ simKey s2 i2) :
    ((getCurrentPrice gen env st s1 i1).state.price_points_returned (simKey s2 i2)
        = st.price_points_returned (simKey s2 i2) ∧
      (getCurrentPrice gen env st s1 i1).state.high_touched (simKey s2 i2)
        = st.high_touched (simKey s2 i2) ∧
      (getCurrentPrice gen env st s1 i1).state.low_touched (simKey s2 i2)
        = st.low_touched (simKey s2 i2) ∧
      (getCurrentPrice gen env st s1 i1).state.simulation_progress (simKey s2 i2)
        = st.simulation_progress (simKey s2 i2)) ∧
    ((resetSimulation st s1 i1).price_points_returned (simKey s2 i2)
        = st.price_points_returned (simKey s2 i2) ∧
      (resetSimulation st s1 i1).high_touched (simKey s2 i2)
        = st.high_touched (simKey s2 i2) ∧
      (resetSimulation st s1 i1).low_touched (simKey s2 i2)
        = st.low_touched (simKey s2 i2) ∧
      (resetSimulation st s1 i1).simulation_progress (simKey s2 i2)
        = st.simulation_progress (simKey s2 i2)) :=
  ⟨getCurrentPrice_frame gen env st s1 i1 (simKey s2 i2) (Ne.symm hk),
    resetSimulation_frame st s1 i1 (simKey s2 i2) (Ne.symm hk)⟩

/-- C10 witness: two keys with different joined key strings. -/
theorem c10_key_isolation_witness :
    ((getCurrentPrice genW envW2 emptyState "BTCUSDT" "1h").state.price_points_returned
          (simKey "ETHUSDT" "1h")
        = emptyState.price_points_returned (simKey "ETHUSDT" "1h") ∧
      (getCurrentPrice genW envW2 emptyState "BTCUSDT" "1h").state.high_touched
          (simKey "ETHUSDT" "1h")
        = emptyState.high_touched (simKey "ETHUSDT" "1h") ∧
      (getCurrentPrice genW envW2 emptyState "BTCUSDT" "1h").state.low_touched
          (simKey "ETHUSDT" "1h")
        = emptyState.low_touched (simKey "ETHUSDT" "1h") ∧
      (getCurrentPrice genW envW2 emptyState "BTCUSDT" "1h").state.simulation_progress
          (simKey "ETHUSDT" "1h")
        = emptyState.simulation_progress (simKey "ETHUSDT" "1h")) ∧
    ((resetSimulation emptyState "BTCUSDT" "1h").price_points_returned
          (simKey "ETHUSDT" "1h")
        = emptyState.price_points_returned (simKey "ETHUSDT" "1h") ∧
      (resetSimulation emptyState "BTCUSDT" "1h").high_touched (simKey "ETHUSDT" "1h")
        = emptyState.high_touched (simKey "ETHUSDT" "1h") ∧
      (resetSimulation emptyState "BTCUSDT" "1h").low_touched (simKey "ETHUSDT" "1h")
        = emptyState.low_touched (simKey "ETHUSDT" "1h") ∧
      (resetSimulation emptyState "BTCUSDT" "1h").simulation_progress
          (simKey "ETHUSDT" "1h")
        = emptyState.simulation_progress (simKey "ETHUSDT" "1h")) :=
  c10_key_isolation genW envW2 emptyState "BTCUSDT" "1h" "ETHUSDT" "1h" (by decide)

/-- C10 (counterexample): the per-key dictionaries are keyed by the
f-string "{symbol}_{interval}", so the two distinct pairs ("a_b", "c")
and ("a", "b_c") share the joined key "a_b_c": resetting the first pair
deletes the progress entry of the second pair. -/
theorem c10_counterexample_key_collision :
    ("a_b", "c") ≠ (("a", "b_c") : String × String) ∧
    (resetSimulation stColl "a_b" "c").simulation_progress (simKey "a" "b_c")
      ≠ stColl.simulation_progress (simKey "a" "b_c") := by
  constructor
  · decide
  · decide

theorem getCurrentPrice_mid (gen : Candle → List PricePoint)
    (env : String → String → Option (List Candle)) (st : SimState)
    (symbol interval : String) (df : List Candle) (p : SimProgress)
    (hdf : env symbol interval = some df)
    (hp : st.simulation_progress (simKey symbol interval) = some p)
    (hci : p.candle_index < df.length)
    (hne : p.price_points ≠ [])
    (hpi : p.point_index < p.price_points.length) :
    (getCurrentPrice gen env st symbol interval).result =
      .ok { symbol := symbol
            price := (p.price_points.getD p.point_index default).price
            is_open := (p.price_points.getD p.point_index default).is_open
            is_high := (p.price_points.getD p.point_index default).is_high
            is_low := (p.price_points.getD p.point_index default).is_low
            is_close := (p.price_points.getD p.point_index default).is_close
            candle_index := p.candle_index
            point_index := p.point_index
            total_candles := df.length
            total_points := p.price_points.length
            high_touched := if (p.price_points.getD p.point_index default).is_high
              then true else (st.high_touched (simKey symbol interval)).getD false
            low_touched := if (p.price_points.getD p.point_index default).is_low
              then true else (st.low_touched (simKey symbol interval)).getD false } ∧
    (getCurrentPrice gen env st symbol interval).state.simulation_progress
        (simKey symbol interval) =
      some { p with point_index := p.point_index + 1 } := by
  have h1 : ¬ (df.length ≤ p.candle_index) := by omega
  have h2 : df ≠ [] := by
    intro h
    rw [h] at hci
    simp at hci
  have h4 : ¬ (p.price_points.length ≤ p.point_index) := by omega
  simp only [getCurrentPrice, hdf, finishCall, setDefault, setKey, hp, Option.getD_some,
    h1, h2, hne, h4, ite_false, ite_true, if_false, if_true, eq_self_iff_true, apply_ite]
  constructor
  · split_ifs <;> simp_all [setKey, setDefault]
  · simp

set_option maxRecDepth 20000 in
set_option maxHeartbeats 2000000 in
theorem getCurrentPrice_fresh (gen : Candle → List PricePoint)
    (env : String → String → Option (List Candle)) (st : SimState)
    (symbol interval : String) (df : List Candle)
    (hdf : env symbol interval = some df)
    (hfresh : st.simulation_progress (simKey symbol interval) = none)
    (hdfne : df ≠ [])
    (hgen : gen (df.getD 0 default) ≠ []) :
    (getCurrentPrice gen env st symbol interval).result =
      .ok { symbol := symbol
            price := ((gen (df.getD 0 default)).getD 0 default).price
            is_open := ((gen (df.getD 0 default)).getD 0 default).is_open
            is_high := ((gen (df.getD 0 default)).getD 0 default).is_high
            is_low := ((gen (df.getD 0 default)).getD 0 default).is_low
            is_close := ((gen (df.getD 0 default)).getD 0 default).is_close
            candle_index := 0
            point_index := 0
            total_candles := df.length
            total_points := (gen (df.getD 0 default)).length
            high_touched := if ((gen (df.getD 0 default)).getD 0 default).is_high
              then true else (st.high_touched (simKey symbol interval)).getD false
            low_touched := if ((gen (df.getD 0 default)).getD 0 default).is_low
              then true else (st.low_touched (simKey symbol interval)).getD false } ∧
    (getCurrentPrice gen env st symbol interval).state.simulation_progress
        (simKey symbol interval) =
      some ⟨0, 1, df.length, gen (df.getD 0 default)⟩ := by
  have h1 : ¬ (df.length ≤ 0) := Nat.not_le.mpr (List.length_pos.mpr hdfne)
  have h4 : ¬ ((gen (df.getD 0 default)).length ≤ 0) :=
    Nat.not_le.mpr (List.length_pos.mpr hgen)
  simp only [getCurrentPrice, hdf, setDefault, hfresh, Option.getD_none, Option.getD_some,
    h1, hdfne, h4, ite_false, ite_true, if_false, if_true, eq_self_iff_true, finishCall, setKey]
  constructor
  · split_ifs <;> simp [setKey, setDefault]
  · simp

theorem getCurrentPrice_advance (gen : Candle → List PricePoint)
    (env : String → String → Option (List Candle)) (st : SimState)
    (symbol interval : String) (df : List Candle) (p : SimProgress)
    (hdf : env symbol interval = some df)
    (hp : st.simulation_progress (simKey symbol interval) = some p)
    (hci : p.candle_index < df.length)
    (hne : p.price_points ≠ [])
    (hpi : p.price_points.length ≤ p.point_index)
    (hgen2 : gen (df.getD
      (if df.length ≤ p.candle_index + 1 then 0 else p.candle_index + 1) default) ≠ []) :
    (getCurrentPrice gen env st symbol interval).result =
      .ok { symbol := symbol
            price := ((gen (df.getD
              (if df.length ≤ p.candle_index + 1 then 0 else p.candle_index + 1)
              default)).getD 0 default).price
            is_open := ((gen (df.getD
              (if df.length ≤ p.candle_index + 1 then 0 else p.candle_index + 1)
              default)).getD 0 default).is_open
            is_high := ((gen (df.getD
              (if df.length ≤ p.candle_index + 1 then 0 else p.candle_index + 1)
              default)).getD 0 default).is_high
            is_low := ((gen (df.getD
              (if df.length ≤ p.candle_index + 1 then 0 else p.candle_index + 1)
              default)).getD 0 default).is_low
            is_close := ((gen (df.getD
              (if df.length ≤ p.candle_index + 1 then 0 else p.candle_index + 1)
              default)).getD 0 default).is_close
            candle_index := if df.length ≤ p.candle_index + 1 then 0 else p.candle_index + 1
            point_index := 0
            total_candles := df.length
            total_points := (gen (df.getD
              (if df.length ≤ p.candle_index + 1 then 0 else p.candle_index + 1)
              default)).length
            high_touched := if ((gen (df.getD
                (if df.length ≤ p.candle_index + 1 then 0 else p.candle_index + 1)
                default)).getD 0 default).is_high
              then true else (st.high_touched (simKey symbol interval)).getD false
            low_touched := if ((gen (df.getD
                (if df.length ≤ p.candle_index + 1 then 0 else p.candle_index + 1)
                default)).getD 0 default).is_low
              then true else (st.low_touched (simKey symbol interval)).getD false } ∧
    (getCurrentPrice gen env st symbol interval).state.simulation_progress
        (simKey symbol interval) =
      some ⟨if df.length ≤ p.candle_index + 1 then 0 else p.candle_index + 1, 1,
        p.total_candles,
        gen (df.getD
          (if df.length ≤ p.candle_index + 1 then 0 else p.candle_index + 1) default)⟩ := by
  have h1 : ¬ (df.length ≤ p.candle_index) := by omega
  have h2 : df ≠ [] := by
    intro h
    rw [h] at hci
    simp at hci
  simp only [getCurrentPrice, hdf, finishCall, setDefault, setKey, hp, Option.getD_some,
    h1, h2, hne, hpi, hgen2, ite_false, ite_true, if_false, if_true, eq_self_iff_true,
    apply_ite]
  constructor
  · split_ifs <;> simp_all [setKey, setDefault]
  · simp

theorem setKey_same {α : Type} (m : String → Option α) (key : String) (v : α) :
    setKey m key v key = some v := by
  simp [setKey]

theorem setDefault_same {α : Type} (m : String → Option α) (key : String) (v : α) :
    setDefault m key v key = some ((m key).getD v) := by
  simp [setDefault]

set_option maxRecDepth 20000 in
set_option maxHeartbeats 2000000 in
theorem getCurrentPrice_ok_post (gen : Candle → List PricePoint)
    (env : String → String → Option (List Candle)) (st : SimState)
    (symbol interval : String) (df : List Candle) (info : PriceInfo)
    (hdf : env symbol interval = some df)
    (hres : (getCurrentPrice gen env st symbol interval).result = .ok info) :
    info.candle_index < df.length ∧
    info.total_candles = df.length ∧
    info.point_index < info.total_points ∧
    ∃ q, (getCurrentPrice gen env st symbol interval).state.simulation_progress
          (simKey symbol interval) = some q ∧
      q.candle_index = info.candle_index ∧
      q.point_index = info.point_index + 1 ∧
      q.price_points.length = info.total_points ∧
      q.price_points ≠ [] := by
  simp only [getCurrentPrice, hdf, finishCall, setKey, setDefault, eq_self_iff_true,
    ite_true, ite_false, Option.getD_some, Option.getD_none] at hres ⊢
  split_ifs at hres ⊢
  all_goals try simp at hres
  all_goals subst hres
  all_goals refine ⟨?_, by simp, ?_, _, by first | rfl | (simp [setKey, setDefault]; rfl),
    by simp, by simp, by simp, ?_⟩
  all_goals first
    | assumption
    | (refine List.length_pos.mpr ?_; assumption)
    | (simp_all <;> try omega)
  all_goals first
    | assumption
    | (rw [List.length_pos]; assumption)
    | (intro hemp
       simp only [hemp, List.length_nil] at *
       omega)

theorem getCurrentPrice_advance_emptygen (gen : Candle → List PricePoint)
    (env : String → String → Option (List Candle)) (st : SimState)
    (symbol interval : String) (df : List Candle) (p : SimProgress)
    (hdf : env symbol interval = some df)
    (hp : st.simulation_progress (simKey symbol interval) = some p)
    (hci : p.candle_index < df.length)
    (hne : p.price_points ≠ [])
    (hpi : p.price_points.length ≤ p.point_index)
    (hgen2 : gen (df.getD
      (if df.length ≤ p.candle_index + 1 then 0 else p.candle_index + 1) default) = []) :
    (getCurrentPrice gen env st symbol interval).result = .indexError := by
  have h1 : ¬ (df.length ≤ p.candle_index) := by omega
  have h2 : df ≠ [] := by
    intro h
    rw [h] at hci
    simp at hci
  simp only [getCurrentPrice, hdf, setDefault, setKey, hp, Option.getD_some,
    h1, h2, hne, hpi, hgen2, ite_false, ite_true, if_false, if_true, eq_self_iff_true]

/-- C4: two consecutive get_current_price calls for the same key with
candle data and no intervening reset return points whose
(candle_index, point_index) pairs strictly increase in lexicographic
order, except exactly when the first call returned the last point
(point_index + 1 = total_points) of the last candle
(candle_index + 1 = total_candles), in which case the second call wraps
to (0, 0).  Chaining this over any sequence of calls gives the
non-decreasing lexicographic ordering guarantee of the claim. -/
theorem c4_lex_order (gen : Candle → List PricePoint)
    (env : String → String → Option (List Candle)) (st : SimState)
    (symbol interval : String) (df : List Candle) (info1 info2 : PriceInfo)
    (hdf : env symbol interval = some df)
    (h1 : (getCurrentPrice gen env st symbol interval).result = .ok info1)
    (h2 : (getCurrentPrice gen env
      (getCurrentPrice gen env st symbol interval).state symbol interval).result
        = .ok info2) :
    (info1.candle_index < info2.candle_index ∨
      (info1.candle_index = info2.candle_index ∧
        info1.point_index < info2.point_index)) ∨
    (info2.candle_index = 0 ∧ info2.point_index = 0 ∧
      info1.candle_index + 1 = info1.total_candles ∧
      info1.point_index + 1 = info1.total_points) := by
  obtain ⟨hci, htc, hpi, q, hq, hqci, hqpi, hqlen, hqne⟩ :=
    getCurrentPrice_ok_post gen env st symbol interval df info1 hdf h1
  by_cases hcase : q.point_index < q.price_points.length
  · have hmid := getCurrentPrice_mid gen env
      (getCurrentPrice gen env st symbol interval).state symbol interval df q hdf hq
      (by omega) hqne hcase
    have hinj := h2.symm.trans hmid.1
    simp only [GetPriceResult.ok.injEq] at hinj
    subst hinj
    left
    right
    exact ⟨by simp [hqci], by simp [hqpi]⟩
  · by_cases hg : gen (df.getD
        (if df.length ≤ q.candle_index + 1 then 0 else q.candle_index + 1) default) = []
    · exfalso
      have hidx := getCurrentPrice_advance_emptygen gen env
        (getCurrentPrice gen env st symbol interval).state symbol interval df q hdf hq
        (by omega) hqne (by omega) hg
      have hcontra := h2.symm.trans hidx
      simp at hcontra
    · have hadv := getCurrentPrice_advance gen env
        (getCurrentPrice gen env st symbol interval).state symbol interval df q hdf hq
        (by omega) hqne (by omega) hg
      have hinj := h2.symm.trans hadv.1
      simp only [GetPriceResult.ok.injEq] at hinj
      subst hinj
      by_cases hwrap : df.length ≤ q.candle_index + 1
      · right
        refine ⟨by simp [hwrap], by simp, by omega, by omega⟩
      · left
        left
        simp only [if_neg hwrap]
        omega

/-- C4 witness: a one-candle, one-point-per-path environment; the first
call returns (0, 0), the last point of the last candle, and the second
call wraps to (0, 0), satisfying the wrap disjunct. -/
theorem c4_lex_order_witness :
    ((⟨"AVAXUSDT", 10, true, false, false, true, 0, 0, 1, 1, false, false⟩
        : PriceInfo).candle_index <
      (⟨"AVAXUSDT", 10, true, false, false, true, 0, 0, 1, 1, false, false⟩
        : PriceInfo).candle_index ∨
      ((⟨"AVAXUSDT", 10, true, false, false, true, 0, 0, 1, 1, false, false⟩
          : PriceInfo).candle_index =
        (⟨"AVAXUSDT", 10, true, false, false, true, 0, 0, 1, 1, false, false⟩
          : PriceInfo).candle_index ∧
        (⟨"AVAXUSDT", 10, true, false, false, true, 0, 0, 1, 1, false, false⟩
          : PriceInfo).point_index <
        (⟨"AVAXUSDT", 10, true, false, false, true, 0, 0, 1, 1, false, false⟩
          : PriceInfo).point_index)) ∨
    ((⟨"AVAXUSDT", 10, true, false, false, true, 0, 0, 1, 1, false, false⟩
        : PriceInfo).candle_index = 0 ∧
      (⟨"AVAXUSDT", 10, true, false, false, true, 0, 0, 1, 1, false, false⟩
        : PriceInfo).point_index = 0 ∧
      (⟨"AVAXUSDT", 10, true, false, false, true, 0, 0, 1, 1, false, false⟩
        : PriceInfo).candle_index + 1 =
        (⟨"AVAXUSDT", 10, true, false, false, true, 0, 0, 1, 1, false, false⟩
          : PriceInfo).total_candles ∧
      (⟨"AVAXUSDT", 10, true, false, false, true, 0, 0, 1, 1, false, false⟩
        : PriceInfo).point_index + 1 =
        (⟨"AVAXUSDT", 10, true, false, false, true, 0, 0, 1, 1, false, false⟩
          : PriceInfo).total_points) :=
  c4_lex_order genW envW emptyState "AVAXUSDT" "1h" [c2x]
    ⟨"AVAXUSDT", 10, true, false, false, true, 0, 0, 1, 1, false, false⟩
    ⟨"AVAXUSDT", 10, true, false, false, true, 0, 0, 1, 1, false, false⟩
    rfl (by decide) (by decide)

theorem iterCalls_succ_commute (gen : Candle → List PricePoint)
    (env : String → String → Option (List Candle)) (symbol interval : String) :
    ∀ (n : ℕ) (st : SimState), iterCalls gen env symbol interval (n + 1) st
      = callState gen env symbol interval (iterCalls gen env symbol interval n st) := by
  intro n
  induction n with
  | zero => intro st; rfl
  | succ m ih =>
    intro st
    show iterCalls gen env symbol interval (m + 1)
      (callState gen env symbol interval st)
      = callState gen env symbol interval (iterCalls gen env symbol interval (m + 1) st)
    rw [ih (callState gen env symbol interval st)]
    rfl

theorem iterCalls_first_candle (gen : Candle → List PricePoint)
    (env : String → String → Option (List Candle)) (symbol interval : String)
    (df : List Candle) (st : SimState)
    (hdf : env symbol interval = some df)
    (hdfne : df ≠ [])
    (hgen : gen (df.getD 0 default) ≠ [])
    (hfresh : st.simulation_progress (simKey symbol interval) = none) :
    ∀ k, 1 ≤ k → k ≤ (gen (df.getD 0 default)).length →
      (iterCalls gen env symbol interval k st).simulation_progress
          (simKey symbol interval) =
        some ⟨0, k, df.length, gen (df.getD 0 default)⟩ := by
  intro k
  induction k with
  | zero => intro h1 h2; omega
  | succ m ih =>
    intro h1 h2
    by_cases hm : m = 0
    · subst hm
      show (callState gen env symbol interval st).simulation_progress
          (simKey symbol interval) = _
      exact (getCurrentPrice_fresh gen env st symbol interval df hdf hfresh hdfne hgen).2
    · rw [iterCalls_succ_commute]
      have hprev := ih (by omega) (by omega)
      have hmid := getCurrentPrice_mid gen env
        (iterCalls gen env symbol interval m st) symbol interval df
        ⟨0, m, df.length, gen (df.getD 0 default)⟩ hdf hprev
        (List.length_pos.mpr hdfne) hgen
        (by show m < (gen (df.getD 0 default)).length; omega)
      exact hmid.2

theorem getCurrentPrice_saved_or_err (gen : Candle → List PricePoint)
    (env : String → String → Option (List Candle)) (st : SimState)
    (symbol interval : String) :
    (getCurrentPrice gen env st symbol interval).saved = true ∨
    (getCurrentPrice gen env st symbol interval).result = .noData ∨
    (getCurrentPrice gen env st symbol interval).result = .indexError := by
  cases henv : env symbol interval with
  | none =>
    right
    left
    simp [getCurrentPrice, henv]
  | some df =>
    simp only [getCurrentPrice, henv, finishCall]
    split_ifs <;> simp

theorem getCurrentPrice_ok_saved (gen : Candle → List PricePoint)
    (env : String → String → Option (List Candle)) (st : SimState)
    (symbol interval : String) (info : PriceInfo)
    (h : (getCurrentPrice gen env st symbol interval).result = .ok info) :
    (getCurrentPrice gen env st symbol interval).saved = true := by
  rcases getCurrentPrice_saved_or_err gen env st symbol interval with hs | hs | hs
  · exact hs
  · rw [h] at hs
    simp at hs
  · rw [h] at hs
    simp at hs

/-- C5: starting from a fresh cursor for a key whose data has at least
two candles (the claim speaks of candle 1, which must exist), calling
get_current_price exactly total-points-of-candle-0 times consumes the
whole candle-0 path; the single next call advances transparently,
returns point index 0 of the freshly generated path of candle 1,
persists the state, and leaves the cursor at candle_index = 1,
point_index = 1. -/
theorem c5_cursor_after_first_candle (gen : Candle → List PricePoint)
    (env : String → String → Option (List Candle)) (st : SimState)
    (symbol interval : String) (df : List Candle)
    (hdf : env symbol interval = some df)
    (hlen : 1 < df.length)
    (hgen0 : gen (df.getD 0 default) ≠ [])
    (hgen1 : gen (df.getD 1 default) ≠ [])
    (hfresh : st.simulation_progress (simKey symbol interval) = none) :
    (getCurrentPrice gen env
        (iterCalls gen env symbol interval (gen (df.getD 0 default)).length st)
        symbol interval).state.simulation_progress (simKey symbol interval) =
      some ⟨1, 1, df.length, gen (df.getD 1 default)⟩ ∧
    (getCurrentPrice gen env
        (iterCalls gen env symbol interval (gen (df.getD 0 default)).length st)
        symbol interval).saved = true ∧
    ∃ info, (getCurrentPrice gen env
        (iterCalls gen env symbol interval (gen (df.getD 0 default)).length st)
        symbol interval).result = .ok info ∧
      info.candle_index = 1 ∧ info.point_index = 0 ∧
      info.price = ((gen (df.getD 1 default)).getD 0 default).price ∧
      info.total_points = (gen (df.getD 1 default)).length := by
  have hN : 1 ≤ (gen (df.getD 0 default)).length := List.length_pos.mpr hgen0
  have hdfne : df ≠ [] := by
    intro h
    rw [h] at hlen
    simp at hlen
  have hprog := iterCalls_first_candle gen env symbol interval df st hdf hdfne hgen0 hfresh
    (gen (df.getD 0 default)).length hN le_rfl
  have hadv := getCurrentPrice_advance gen env
    (iterCalls gen env symbol interval (gen (df.getD 0 default)).length st)
    symbol interval df
    ⟨0, (gen (df.getD 0 default)).length, df.length, gen (df.getD 0 default)⟩
    hdf hprog (by show 0 < df.length; omega) hgen0
    (by show (gen (df.getD 0 default)).length ≤ (gen (df.getD 0 default)).length; omega)
    (by
      show gen (df.getD (if df.length ≤ 0 + 1 then 0 else 0 + 1) default) ≠ []
      rw [if_neg (by omega)]
      exact hgen1)
  have hni : ¬ df.length ≤
      (⟨0, (gen (df.getD 0 default)).length, df.length, gen (df.getD 0 default)⟩
        : SimProgress).candle_index + 1 := by
    show ¬ df.length ≤ 0 + 1
    omega
  rw [if_neg hni] at hadv
  refine ⟨hadv.2, ?_, _, hadv.1, rfl, rfl, rfl, rfl⟩
  exact getCurrentPrice_ok_saved gen env _ symbol interval _ hadv.1

/-- C5 witness: the two-candle environment with one-point paths; one call
consumes candle 0, the next call returns point 0 of candle 1 and leaves
the cursor at (1, 1). -/
theorem c5_cursor_after_first_candle_witness :
    (getCurrentPrice genW envW2
        (iterCalls genW envW2 "BTCUSDT" "1h" (genW (dfW.getD 0 default)).length emptyState)
        "BTCUSDT" "1h").state.simulation_progress (simKey "BTCUSDT" "1h") =
      some ⟨1, 1, dfW.length, genW (dfW.getD 1 default)⟩ ∧
    (getCurrentPrice genW envW2
        (iterCalls genW envW2 "BTCUSDT" "1h" (genW (dfW.getD 0 default)).length emptyState)
        "BTCUSDT" "1h").saved = true ∧
    ∃ info, (getCurrentPrice genW envW2
        (iterCalls genW envW2 "BTCUSDT" "1h" (genW (dfW.getD 0 default)).length emptyState)
        "BTCUSDT" "1h").result = .ok info ∧
      info.candle_index = 1 ∧ info.point_index = 0 ∧
      info.price = ((genW (dfW.getD 1 default)).getD 0 default).price ∧
      info.total_points = (genW (dfW.getD 1 default)).length :=
  c5_cursor_after_first_candle genW envW2 emptyState "BTCUSDT" "1h" dfW rfl
    (by decide) (by decide) (by decide) rfl

/-- C6: reset_simulation deletes exactly the four per-key entries of the
given key (entries of every other key are untouched, and the candle data
lives outside the state and is not touched at all), and a following
get_current_price for that key, regardless of the prior progress in st,
starts over: it returns point index 0 of a freshly generated path for
candle 0 and leaves the cursor at candle_index 0, point_index 1. -/
theorem c6_reset_then_first_point (gen : Candle → List PricePoint)
    (env : String → String → Option (List Candle)) (st : SimState)
    (symbol interval : String) (df : List Candle)
    (hdf : env symbol interval = some df)
    (hdfne : df ≠ [])
    (hgen : gen (df.getD 0 default) ≠ []) :
    (resetSimulation st symbol interval).simulation_progress (simKey symbol interval)
        = none ∧
    (resetSimulation st symbol interval).price_points_returned (simKey symbol interval)
        = none ∧
    (resetSimulation st symbol interval).high_touched (simKey symbol interval) = none ∧
    (resetSimulation st symbol interval).low_touched (simKey symbol interval) = none ∧
    (∀ k, k ≠ simKey symbol interval →
      (resetSimulation st symbol interval).price_points_returned k
          = st.price_points_returned k ∧
      (resetSimulation st symbol interval).high_touched k = st.high_touched k ∧
      (resetSimulation st symbol interval).low_touched k = st.low_touched k ∧
      (resetSimulation st symbol interval).simulation_progress k
          = st.simulation_progress k) ∧
    (∃ info, (getCurrentPrice gen env (resetSimulation st symbol interval)
        symbol interval).result = .ok info ∧
      info.candle_index = 0 ∧ info.point_index = 0 ∧
      info.price = ((gen (df.getD 0 default)).getD 0 default).price ∧
      info.total_candles = df.length ∧
      info.total_points = (gen (df.getD 0 default)).length) ∧
    (getCurrentPrice gen env (resetSimulation st symbol interval)
        symbol interval).state.simulation_progress (simKey symbol interval) =
      some ⟨0, 1, df.length, gen (df.getD 0 default)⟩ := by
  have hfresh0 : (resetSimulation st symbol interval).simulation_progress
      (simKey symbol interval) = none := by
    simp [resetSimulation, delKey]
  have hres := getCurrentPrice_fresh gen env (resetSimulation st symbol interval)
    symbol interval df hdf hfresh0 hdfne hgen
  refine ⟨hfresh0, by simp [resetSimulation, delKey], by simp [resetSimulation, delKey],
    by simp [resetSimulation, delKey],
    fun k hk => resetSimulation_frame st symbol interval k hk,
    ⟨_, hres.1, rfl, rfl, rfl, rfl, rfl⟩, hres.2⟩

/-- C6 witness: resetting a state that holds prior progress, then calling
for a key with one candle of data. -/
theorem c6_reset_then_first_point_witness :
    (resetSimulation stColl "AVAXUSDT" "1h").simulation_progress
        (simKey "AVAXUSDT" "1h") = none ∧
    (resetSimulation stColl "AVAXUSDT" "1h").price_points_returned
        (simKey "AVAXUSDT" "1h") = none ∧
    (resetSimulation stColl "AVAXUSDT" "1h").high_touched (simKey "AVAXUSDT" "1h")
        = none ∧
    (resetSimulation stColl "AVAXUSDT" "1h").low_touched (simKey "AVAXUSDT" "1h")
        = none ∧
    (∀ k, k ≠ simKey "AVAXUSDT" "1h" →
      (resetSimulation stColl "AVAXUSDT" "1h").price_points_returned k
          = stColl.price_points_returned k ∧
      (resetSimulation stColl "AVAXUSDT" "1h").high_touched k = stColl.high_touched k ∧
      (resetSimulation stColl "AVAXUSDT" "1h").low_touched k = stColl.low_touched k ∧
      (resetSimulation stColl "AVAXUSDT" "1h").simulation_progress k
          = stColl.simulation_progress k) ∧
    (∃ info, (getCurrentPrice genW envW (resetSimulation stColl "AVAXUSDT" "1h")
        "AVAXUSDT" "1h").result = .ok info ∧
      info.candle_index = 0 ∧ info.point_index = 0 ∧
      info.price = ((genW ([c2x].getD 0 default)).getD 0 default).price ∧
      info.total_candles = [c2x].length ∧
      info.total_points = (genW ([c2x].getD 0 default)).length) ∧
    (getCurrentPrice genW envW (resetSimulation stColl "AVAXUSDT" "1h")
        "AVAXUSDT" "1h").state.simulation_progress (simKey "AVAXUSDT" "1h") =
      some ⟨0, 1, [c2x].length, genW ([c2x].getD 0 default)⟩ :=
  c6_reset_then_first_point genW envW stColl "AVAXUSDT" "1h" [c2x] rfl
    (by decide) (by decide)
